import Mathlib

/-!
# Verification of the LAWGORITHM clause segmentation and risk-scoring engine

Shallow embedding of `src/backend/services/segmentation_service.py` and
`src/backend/services/risk_service.py`.  Text is modelled as `List Char`
(Python `str`), Python floats as exact rationals `ℚ`, and the Python `re`
patterns used by the services as terms of a small regex AST `RE` with a
backtracking matcher that mirrors CPython's leftmost, first-alternative,
greedy semantics.  All regexes in the source apply quantifiers only to
single-character classes, which the AST reflects.  Case-insensitive
matching (`re.IGNORECASE`) is modelled by lowercasing the subject and
writing the pattern literals in lowercase; the inputs relevant to the
claims are ASCII, where Python `str.lower` and `Char.toLower` agree.
-/

namespace Lawgorithm

/-- ASCII whitespace recognised by Python `str.strip` / `str.split`. -/
def isWS (c : Char) : Bool :=
  c = ' ' || c = '\t' || c = '\n' || c = '\r' || c = '\x0b' || c = '\x0c'

/-- Python `str.lower` (ASCII fragment). -/
def toLowerL (s : List Char) : List Char := s.map Char.toLower

/-- Right-trim: drop trailing whitespace. -/
def rtrimL (s : List Char) : List Char := (s.reverse.dropWhile isWS).reverse

/-- Python `str.strip()`. -/
def trimL (s : List Char) : List Char := rtrimL (s.dropWhile isWS)

/-- Split on single separator characters, keeping empty pieces
(like Python `re.split` with a one-character class; runs of separators
produce empty pieces that the services discard afterwards). -/
def splitChar (p : Char → Bool) : List Char → List (List Char)
  | [] => [[]]
  | c :: t =>
    match splitChar p t with
    | [] => if p c then [[], []] else [[c]]
    | g :: gs => if p c then [] :: g :: gs else (c :: g) :: gs

/-- Python `str.split()` with no argument: whitespace runs, empties dropped. -/
def pySplitWS (s : List Char) : List (List Char) :=
  (splitChar isWS s).filter (fun g => !g.isEmpty)

/-- Does `needle` occur as a prefix of `hay`? -/
def isPre : List Char → List Char → Bool
  | [], _ => true
  | _ :: _, [] => false
  | c :: cs, d :: ds => c = d && isPre cs ds

/-- Does `needle` occur at offset `i` of `hay`? -/
def isSubAt (needle hay : List Char) (i : Nat) : Bool := isPre needle (hay.drop i)

/-- Python `needle in hay` (substring containment). -/
def containsSub (needle hay : List Char) : Bool :=
  (List.range (hay.length + 1)).any (fun i => isSubAt needle hay i)

/-- Python `hay.find(needle)`: offset of the first occurrence, `-1` if none. -/
def pyFind (hay needle : List Char) : Int :=
  match (List.range (hay.length + 1)).find? (fun i => isSubAt needle hay i) with
  | some i => (i : Int)
  | none => -1

/-! ## Regex AST and matcher -/

/-- Character classes appearing in the services' patterns. -/
inductive CCls where
  | oneOf (cs : List Char)
  | digit
  | ws
  | range (lo hi : Char)
deriving DecidableEq

def CCls.test : CCls → Char → Bool
  | .oneOf cs, c => cs.any (fun d => d = c)
  | .digit, c => c.isDigit
  | .ws, c => isWS c
  | .range lo hi, c => lo ≤ c && c ≤ hi

/-- Regex AST.  Quantifiers apply only to character classes, exactly as in
the source patterns.  `wb` is `\b`; `bol` is multiline `^`. -/
inductive RE where
  | eps
  | lit (cs : List Char)
  | one (c : CCls)
  | opt (c : CCls)
  | plus (c : CCls)
  | star (c : CCls)
  | seq (a b : RE)
  | alt (a b : RE)
  | wb
  | bol
deriving DecidableEq

/-- Python `\w` (ASCII fragment). -/
def isWordChar (c : Char) : Bool := c.isAlpha || c.isDigit || c = '_'

def isWordOpt : Option Char → Bool
  | some c => isWordChar c
  | none => false

def isWordHead : List Char → Bool
  | c :: _ => isWordChar c
  | [] => false

/-- Consume a literal.  `prev` is the character just before the current
position (`none` at the start of the subject); continuations receive the
updated `prev` and the remaining suffix. -/
def eatLit {α : Type} : List Char → Option Char → List Char →
    (Option Char → List Char → Option α) → Option α
  | [], p, s, k => k p s
  | c :: cs, _, s, k =>
    match s with
    | [] => none
    | d :: ds => if c = d then eatLit cs (some d) ds k else none

/-- Greedy `+` on a character class: consume at least one matching
character, preferring longer runs, backtracking into `k`. -/
def plusCls {α : Type} (c : CCls) (k : Option Char → List Char → Option α) :
    Option Char → List Char → Option α
  | _, [] => none
  | _, d :: ds =>
    if c.test d then
      match plusCls c k (some d) ds with
      | some r => some r
      | none => k (some d) ds
    else none

/-- Backtracking matcher in continuation-passing style, mirroring CPython's
preference order: alternatives left to right, quantifiers greedy. -/
def matchK {α : Type} : RE → Option Char → List Char →
    (Option Char → List Char → Option α) → Option α
  | .eps, p, s, k => k p s
  | .lit cs, p, s, k => eatLit cs p s k
  | .one c, _, s, k =>
    match s with
    | [] => none
    | d :: ds => if c.test d then k (some d) ds else none
  | .opt c, p, s, k =>
    match s with
    | [] => k p s
    | d :: ds =>
      if c.test d then
        match k (some d) ds with
        | some r => some r
        | none => k p s
      else k p s
  | .plus c, p, s, k => plusCls c k p s
  | .star c, p, s, k =>
    match plusCls c k p s with
    | some r => some r
    | none => k p s
  | .seq a b, p, s, k => matchK a p s (fun q t => matchK b q t k)
  | .alt a b, p, s, k =>
    match matchK a p s k with
    | some r => some r
    | none => matchK b p s k
  | .wb, p, s, k => if isWordOpt p != isWordHead s then k p s else none
  | .bol, p, s, k => if p = none || p = some '\n' then k p s else none

/-- Python `pattern.match(s)` anchored at position 0: does a match start
at the very beginning of the subject? -/
def matchStart (r : RE) (s : List Char) : Bool :=
  (matchK r none s (fun _ t => some t)).isSome

/-- One scanning step of Python `re.search`: try every start position. -/
def searchFrom (r : RE) : Nat → Option Char → List Char → Bool
  | 0, _, _ => false
  | fuel + 1, p, s =>
    (matchK r p s (fun _ _ => some ())).isSome ||
      (match s with
       | [] => false
       | d :: ds => searchFrom r fuel (some d) ds)

/-- Python `re.search(r, s) is not None`. -/
def reSearch (r : RE) (s : List Char) : Bool := searchFrom r (s.length + 1) none s

/-- Scanning loop of Python `re.findall`: non-overlapping matches, left to
right; a zero-width match advances one position. -/
def countFrom (r : RE) : Nat → Option Char → List Char → Nat
  | 0, _, _ => 0
  | fuel + 1, p, s =>
    match matchK r p s (fun q t => some (q, t)) with
    | some (q, t) =>
      if t.length = s.length then
        match s with
        | [] => 1
        | d :: ds => 1 + countFrom r fuel (some d) ds
      else 1 + countFrom r fuel q t
    | none =>
      match s with
      | [] => 0
      | d :: ds => countFrom r fuel (some d) ds

/-- Python `len(re.findall(r, s))`. -/
def countAll (r : RE) (s : List Char) : Nat := countFrom r (s.length + 1) none s

/-- Python `min` on two rationals, written out so that kernel reduction
(`decide`) can evaluate it. -/
def qmin (a b : ℚ) : ℚ := if a ≤ b then a else b

/-- Python `max` on two rationals. -/
def qmax (a b : ℚ) : ℚ := if a ≤ b then b else a

/-! ## Pattern construction helpers -/

def L (s : String) : RE := RE.lit s.data

def rSeq (rs : List RE) : RE :=
  match rs with
  | [] => RE.eps
  | r :: rest => rest.foldl RE.seq r

def rAlt (rs : List RE) : RE :=
  match rs with
  | [] => RE.eps
  | r :: rest => rest.foldl RE.alt r

/-- `\s+` -/
def wsP : RE := RE.plus CCls.ws
/-- `\s*` -/
def wsS : RE := RE.star CCls.ws
/-- `\d+` -/
def dP : RE := RE.plus CCls.digit
/-- `\b` -/
def WB : RE := RE.wb
/-- `(?:^|\n)` under `re.MULTILINE`: `^` preferred, literal newline second. -/
def BOLNL : RE := RE.alt RE.bol (RE.lit ['\n'])
/-- `s?` (optional plural letter) -/
def opS : RE := RE.opt (CCls.oneOf ['s'])

/-! ## SegmentationService (src/backend/services/segmentation_service.py)

`self.clause_patterns` (lines 11-34), compiled with `re.IGNORECASE |
re.MULTILINE`; literals lowercased since subjects are lowercased. -/

def clause_start_patterns : List RE := [
  rSeq [BOLNL, wsS, rAlt [L "article", L "section", L "clause", L "paragraph"],
        wsP, dP, RE.one (CCls.oneOf ['.', ')', ':']), wsS],
  rSeq [BOLNL, wsS, dP, RE.one (CCls.oneOf ['.', ')']), wsS],
  rSeq [BOLNL, wsS, RE.one (CCls.range 'a' 'z'), L ")", wsS],
  rSeq [BOLNL, wsS, L "(", RE.one (CCls.range 'a' 'z'), L ")", wsS],
  rSeq [BOLNL, wsS, RE.plus (CCls.oneOf ['i', 'v', 'x']), L ")", wsS],
  rSeq [BOLNL, wsS, L "(", RE.plus (CCls.oneOf ['i', 'v', 'x']), L ")", wsS],
  rSeq [BOLNL, wsS, L "whereas", wsP],
  rSeq [BOLNL, wsS, L "now", wsP, L "therefore", wsP],
  rSeq [BOLNL, wsS, L "in", wsP, L "witness", wsP, L "whereof", wsP],
  rSeq [BOLNL, wsS, L "therefore", wsP],
  rSeq [BOLNL, wsS, L "furthermore", wsP],
  rSeq [BOLNL, wsS, L "moreover", wsP],
  rSeq [BOLNL, wsS, L "however", wsP],
  rSeq [BOLNL, wsS, L "notwithstanding", wsP],
  rSeq [BOLNL, wsS, L "subject", wsP, L "to", wsP],
  rSeq [BOLNL, wsS, L "provided", wsP, L "that", wsP],
  rSeq [BOLNL, wsS, L "in", wsP, L "the", wsP, L "event", wsP, L "that", wsP],
  rSeq [BOLNL, wsS, L "in", wsP, L "case", wsP, L "of", wsP],
  rSeq [BOLNL, wsS, L "if", wsP],
  rSeq [BOLNL, wsS, L "unless", wsP],
  rSeq [BOLNL, wsS, L "except", wsP],
  rSeq [BOLNL, wsS, L "notwithstanding", wsP]]

/-- `_split_into_sentences` (lines 122-128): `re.split(r'[.!?]+', text)`
then strip and drop empties.  Splitting on runs of separators differs
from splitting on single separators only by empty pieces, which the
filter removes. -/
def isSentSep (c : Char) : Bool := c = '.' || c = '!' || c = '?'

def split_into_sentences (text : List Char) : List (List Char) :=
  ((splitChar isSentSep text).map trimL).filter (fun s => !s.isEmpty)

/-- `_is_clause_start` (lines 130-137): `pattern.match(sentence)`. -/
def is_clause_start (sentence : List Char) : Bool :=
  clause_start_patterns.any (fun r => matchStart r (toLowerL sentence))

/-- `_classify_clause_type` type_patterns (lines 146-179), in dict order. -/
def type_patterns : List (String × List RE) := [
  ("definition",
    [rSeq [WB, rAlt [rSeq [L "mean", opS], L "shall mean", L "refers to",
                     L "is defined as"], WB],
     rSeq [WB, rAlt [rSeq [L "for the purpose", opS, L " of"],
                     L "in this agreement"], WB]]),
  ("obligation",
    [rSeq [WB, rAlt [L "shall", L "must", L "will", L "agree to",
                     L "undertake to"], WB],
     rSeq [WB, rAlt [L "responsible for", L "liable for", L "bound to"], WB]]),
  ("prohibition",
    [rSeq [WB, rAlt [L "shall not", L "must not", L "will not", L "cannot",
                     L "may not"], WB],
     rSeq [WB, rAlt [L "prohibited", L "forbidden", L "restricted"], WB]]),
  ("condition",
    [rSeq [WB, rAlt [L "if", L "unless", L "provided that", L "subject to"], WB],
     rSeq [WB, rAlt [L "in the event that", L "in case of"], WB]]),
  ("termination",
    [rSeq [WB, rAlt [L "terminate", L "end", L "expire", L "cease"], WB],
     rSeq [WB, rAlt [L "breach", L "default", L "violation"], WB]]),
  ("liability",
    [rSeq [WB, rAlt [L "liability", L "damages", L "indemnify",
                     L "hold harmless"], WB],
     rSeq [WB, rAlt [L "responsible", L "accountable", L "liable"], WB]]),
  ("payment",
    [rSeq [WB, rAlt [L "payment", L "fee", L "cost", L "expense", L "charge"], WB],
     rSeq [WB, rAlt [L "due", L "payable", L "remit", L "transfer"], WB]]),
  ("confidentiality",
    [rSeq [WB, rAlt [L "confidential", L "proprietary", L "secret",
                     L "private"], WB],
     rSeq [WB, rAlt [L "disclose", L "reveal", L "share", L "divulge"], WB]])]

/-- `_classify_clause_type` (lines 139-187): first group with a matching
pattern wins; `"general"` otherwise. -/
def classify_clause_type (clause_text : List Char) : String :=
  match type_patterns.find?
      (fun tp => tp.2.any (fun r => reSearch r (toLowerL clause_text))) with
  | some tp => tp.1
  | none => "general"

/-- `legal_keywords` of `_calculate_confidence` (lines 196-200). -/
def legal_keywords : List (List Char) :=
  ["shall", "must", "will", "agree", "party", "contract", "agreement",
   "liability", "damages", "breach", "terminate", "confidential",
   "payment", "fee", "obligation", "right", "duty",
   "responsibility"].map String.data

/-- `_calculate_confidence` (lines 189-216). -/
def calculate_confidence (clause_text : List Char) : ℚ :=
  let keyword_count :=
    (legal_keywords.filter (fun w => containsSub w (toLowerL clause_text))).length
  let lenBonus : ℚ :=
    if 100 < clause_text.length then 1/10
    else if 50 < clause_text.length then 1/20 else 0
  let endBonus : ℚ :=
    match clause_text.getLast? with
    | some c => if c = '.' || c = '!' || c = '?' then 1/10 else 0
    | none => 0
  qmin 1 (1/2 + qmin (3/10) ((keyword_count : ℚ) * (1/20)) + lenBonus + endBonus)

/-- A clause dict as produced by segmentation (lines 81-118). -/
structure Clause where
  id : Nat
  text : List Char
  type : String
  start_index : Int
  end_index : Int
  confidence : ℚ
deriving DecidableEq, Repr

/-- Flushing the accumulated buffer as a clause (lines 81-88): the stored
text is stripped, but classification, confidence and the span length use
the raw buffer, exactly as the Python does. -/
def mkClause (id : Nat) (current : List Char) (start : Int) : Clause :=
  { id := id
    text := trimL current
    type := classify_clause_type current
    start_index := start
    end_index := start + (current.length : Int)
    confidence := calculate_confidence current }

structure SegState where
  clauses : List Clause
  current : List Char
  id : Nat
  start : Int
deriving Repr

/-- One iteration of the sentence loop of `_segment_text` (lines 76-96). -/
def segStep (text : List Char) (st : SegState) (sentence : List Char) : SegState :=
  if is_clause_start sentence then
    if trimL st.current ≠ [] then
      { clauses := st.clauses ++ [mkClause st.id st.current st.start]
        current := sentence
        id := st.id + 1
        start := pyFind text sentence }
    else
      { st with current := sentence, start := pyFind text sentence }
  else
    { st with current := st.current ++ ' ' :: sentence }

/-- `_segment_text` (lines 64-120). -/
def segment_text (text : List Char) : List Clause :=
  let st := (split_into_sentences text).foldl (segStep text) ⟨[], [], 1, 0⟩
  let clauses :=
    if trimL st.current ≠ [] then st.clauses ++ [mkClause st.id st.current st.start]
    else st.clauses
  if clauses = [] then
    [{ id := 1, text := text, type := "general", start_index := 0,
       end_index := (text.length : Int), confidence := 1/2 }]
  else clauses

/-- `segment_clauses` (lines 39-62) on its normal (non-exception) path;
`internal_error` selects the documented fallback of the `except` branch. -/
def segment_clauses_run (internal_error : Bool) (text : List Char) : List Clause :=
  if internal_error then
    [{ id := 1, text := text, type := "unknown", start_index := 0,
       end_index := (text.length : Int), confidence := 1/10 }]
  else if trimL text = [] then []
  else segment_text text

def segment_clauses (text : List Char) : List Clause :=
  segment_clauses_run false text

/-! ## RiskService (src/backend/services/risk_service.py) -/

/-- `risk_patterns["high"]["patterns"]` (lines 13-25). -/
def high_patterns : List RE := [
  rSeq [WB, rAlt [L "unlimited", L "unrestricted", L "absolute"], wsP,
        rAlt [L "liability", L "responsibility"], WB],
  rSeq [WB, rAlt [L "indemnify", L "hold harmless"], wsP,
        rAlt [L "against", L "for"], wsP, rAlt [L "all", L "any", L "every"], WB],
  rSeq [WB, rAlt [rSeq [L "without", wsP, L "limitation"],
                  rSeq [L "without", wsP, L "restriction"]], WB],
  rSeq [WB, rAlt [L "consequential", L "punitive", L "special"], wsP,
        L "damages", WB],
  rSeq [WB, rAlt [L "automatic", L "immediate"], wsP,
        rAlt [L "termination", L "cancellation"], WB],
  rSeq [WB, rAlt [L "penalty", L "fine"], wsP,
        rAlt [L "of", rSeq [L "in", wsP, L "the", wsP, L "amount", wsP, L "of"]],
        wsP, RE.opt (CCls.oneOf ['$']), dP],
  rSeq [WB, rAlt [L "breach", L "violation"], wsP, rAlt [L "shall", L "will"],
        wsP, rAlt [rSeq [L "result", wsP, L "in"], L "constitute"], WB],
  rSeq [WB, rAlt [L "irrevocable", L "permanent", L "final"], WB],
  rSeq [WB, rAlt [L "waive", L "waiver"], wsP, rAlt [L "all", L "any"], wsP,
        rAlt [rSeq [L "right", opS], rSeq [L "claim", opS],
              rSeq [L "defense", opS]], WB],
  rSeq [WB, rAlt [L "exclusive", L "sole"], wsP,
        rAlt [L "remedy", L "recourse"], WB]]

/-- `risk_patterns["medium"]["patterns"]` (lines 28-40). -/
def medium_patterns : List RE := [
  rSeq [WB, rAlt [L "reasonable", L "limited"], wsP,
        rAlt [L "liability", L "responsibility"], WB],
  rSeq [WB, rAlt [L "terminate", L "end", L "cease"], wsP,
        rAlt [L "upon", rSeq [L "in", wsP, L "case", wsP, L "of"]], WB],
  rSeq [WB, rAlt [L "breach", L "default", L "violation"], wsP,
        rAlt [L "of", L "under"], WB],
  rSeq [WB, rAlt [L "notice", L "notification"], wsP,
        rAlt [L "of", L "regarding"], WB],
  rSeq [WB, rAlt [L "remedy", L "recourse"], wsP,
        rAlt [L "for", L "against"], WB],
  rSeq [WB, rAlt [rSeq [L "damage", opS], rSeq [L "losse", opS]], wsP,
        rAlt [rSeq [L "arising", wsP, L "from"],
              rSeq [L "resulting", wsP, L "from"]], WB],
  rSeq [WB, rAlt [L "confidential", L "proprietary"], wsP,
        rAlt [L "information", L "data"], WB],
  rSeq [WB, rAlt [L "payment", L "fee"], wsP, rAlt [L "due", L "payable"], wsP,
        rAlt [L "within", L "by"], WB],
  rSeq [WB, rAlt [rSeq [L "subject", wsP, L "to"],
                  rSeq [L "conditioned", wsP, L "upon"]], WB],
  rSeq [WB, rAlt [rSeq [L "provided", wsP, L "that"],
                  rSeq [L "as", wsP, L "long", wsP, L "as"]], WB]]

/-- `risk_patterns["low"]["patterns"]` (lines 43-55). -/
def low_patterns : List RE := [
  rSeq [WB, rAlt [L "may", L "might", L "could"], wsP,
        rAlt [L "be", L "have", L "include"], WB],
  rSeq [WB, rAlt [L "reasonable", rSeq [L "good", wsP, L "faith"]], wsP,
        rAlt [rSeq [L "effort", opS], rSeq [L "attempt", opS]], WB],
  rSeq [WB, rAlt [rSeq [L "best", wsP, L "effort", opS],
                  rSeq [L "reasonable", wsP, L "care"]], WB],
  rSeq [WB, rAlt [rSeq [L "subject", wsP, L "to", wsP, L "availability"],
                  rSeq [L "as", wsP, L "available"]], WB],
  rSeq [WB, rAlt [rSeq [L "at", wsP, L "the", wsP, L "discretion", wsP, L "of"],
                  rSeq [L "in", wsP, L "the", wsP, L "opinion", wsP, L "of"]], WB],
  rSeq [WB, rAlt [rSeq [L "unless", wsP, L "otherwise", wsP, L "specified"],
                  rSeq [L "except", wsP, L "as", wsP, L "noted"]], WB],
  rSeq [WB, rAlt [L "generally", L "typically", L "usually"], WB],
  rSeq [WB, rAlt [L "approximately", L "about", L "around"], WB],
  rSeq [WB, rAlt [rSeq [L "if", wsP, L "possible"],
                  rSeq [L "when", wsP, L "feasible"]], WB],
  rSeq [WB, rAlt [rSeq [L "reasonable", wsP, L "time"],
                  rSeq [L "appropriate", wsP, L "period"]], WB]]

/-- `self.risk_patterns` in Python dict (insertion) order with weights
0.8 / 0.5 / 0.2 (lines 12-58). -/
def risk_patterns_list : List (String × (List RE × ℚ)) :=
  [("high", (high_patterns, 4/5)),
   ("medium", (medium_patterns, 1/2)),
   ("low", (low_patterns, 1/5))]

/-- One iteration of the per-group loop of `_analyze_clause_risk`
(lines 134-147): the state is `(total_score, total_weight)`. -/
def pattern_step (lower : List Char) (words : Nat) (st : ℚ × ℚ)
    (entry : String × (List RE × ℚ)) : ℚ × ℚ :=
  let nmatches := (entry.2.1.map (fun r => countAll r lower)).sum
  if 0 < nmatches then
    (st.1 + ((nmatches : ℚ) / (words : ℚ)) * entry.2.2, st.2 + entry.2.2)
  else st

/-- `(total_score, total_weight)` accumulated over the three groups,
with `words = max(1, len(clause_text.split()))` (line 145). -/
def pattern_totals (clause_text : List Char) : ℚ × ℚ :=
  risk_patterns_list.foldl
    (pattern_step (toLowerL clause_text) (Nat.max 1 (pySplitWS clause_text).length))
    (0, 0)

/-- Keyword lists of `_calculate_additional_risk_factors` (lines 175-186). -/
def negation_words : List (List Char) :=
  ["not", "no", "never", "none", "neither", "nor", "without",
   "unless"].map String.data

def uncertainty_words : List (List Char) :=
  ["may", "might", "could", "possibly", "potentially",
   "uncertain"].map String.data

def time_words : List (List Char) :=
  ["immediately", "urgent", "asap", "promptly", "without delay"].map String.data

/-- `_calculate_additional_risk_factors` (lines 161-189).  Note the Python
counts `sum(1 for word in list if word in clause_lower)`: each keyword
contributes at most once, by substring containment. -/
def calculate_additional_risk_factors (clause_text : List Char) : ℚ :=
  let lower := toLowerL clause_text
  let lenF : ℚ :=
    if 200 < clause_text.length then 1/10
    else if 100 < clause_text.length then 1/20 else 0
  let negation_count := (negation_words.filter (fun w => containsSub w lower)).length
  let uncertainty_count :=
    (uncertainty_words.filter (fun w => containsSub w lower)).length
  let time_count := (time_words.filter (fun w => containsSub w lower)).length
  lenF + qmin (1/5) ((negation_count : ℚ) * (1/20))
    + qmin (3/20) ((uncertainty_count : ℚ) * (3/100))
    + qmin (1/10) ((time_count : ℚ) * (1/20))

/-- `_analyze_clause_risk` (lines 122-159): the additional factors are
added into `total_score` before the division by `total_weight`; the
`min 1` clamp applies only on the `total_weight > 0` branch. -/
def analyze_clause_risk (clause_text : List Char) : ℚ :=
  if trimL clause_text = [] then 0
  else if 0 < (pattern_totals clause_text).2 then
    qmin 1 (((pattern_totals clause_text).1
             + calculate_additional_risk_factors clause_text)
           / (pattern_totals clause_text).2)
  else calculate_additional_risk_factors clause_text

/-- `risk_checks` of `_identify_risk_factors` (lines 199-210). -/
def risk_checks : List (String × RE) := [
  ("Unlimited Liability",
   rSeq [WB, rAlt [L "unlimited", L "unrestricted"], wsP,
         rAlt [L "liability", L "responsibility"], WB]),
  ("Automatic Termination",
   rSeq [WB, rAlt [L "automatic", L "immediate"], wsP,
         rAlt [L "termination", L "cancellation"], WB]),
  ("Penalty Clauses",
   rSeq [WB, rAlt [L "penalty", L "fine"], wsP,
         rAlt [L "of", rSeq [L "in", wsP, L "the", wsP, L "amount", wsP, L "of"]],
         wsP, RE.opt (CCls.oneOf ['$']), dP]),
  ("Indemnification", rSeq [WB, rAlt [L "indemnify", L "hold harmless"], WB]),
  ("Waiver of Rights",
   rSeq [WB, rAlt [L "waive", L "waiver"], wsP, rAlt [L "all", L "any"], wsP,
         rAlt [rSeq [L "right", opS], rSeq [L "claim", opS]], WB]),
  ("Consequential Damages",
   rSeq [WB, rAlt [L "consequential", L "punitive", L "special"], wsP,
         L "damages", WB]),
  ("Irrevocable Terms",
   rSeq [WB, rAlt [L "irrevocable", L "permanent", L "final"], WB]),
  ("Exclusive Remedy",
   rSeq [WB, rAlt [L "exclusive", L "sole"], wsP,
         rAlt [L "remedy", L "recourse"], WB]),
  ("Confidentiality Breach",
   rSeq [WB, rAlt [L "confidential", L "proprietary"], wsP,
         rAlt [L "information", L "data"], WB]),
  ("Payment Default",
   rSeq [WB, rAlt [L "payment", L "fee"], wsP, rAlt [L "due", L "payable"], wsP,
         rAlt [L "within", L "by"], WB])]

/-- `_identify_risk_factors` (lines 191-216). -/
def identify_risk_factors (clause_text : List Char) : List String :=
  (risk_checks.filter (fun rc => reSearch rc.2 (toLowerL clause_text))).map
    (fun rc => rc.1)

/-- `_generate_risk_explanation` (lines 218-233). -/
def generate_risk_explanation (risk_level : String)
    (risk_factors : List String) : String :=
  let base :=
    if risk_level = "high" then
      "This clause contains high-risk elements that could significantly impact your rights or obligations."
    else if risk_level = "medium" then
      "This clause contains moderate-risk elements that should be carefully reviewed."
    else
      "This clause appears to have low-risk elements, but should still be reviewed."
  if risk_factors.isEmpty then base
  else base ++ " Identified risk factors: " ++
    String.intercalate ", " risk_factors ++ "."

structure RiskAssessment where
  clause_id : Nat
  risk_score : ℚ
  risk_level : String
  color : String
  risk_factors : List String
  explanation : String
deriving DecidableEq, Repr

/-- Body of the per-clause loop of `_calculate_risks` (lines 90-118):
score, the level/color if-chain, factors and explanation. -/
def assess (clause : Clause) : RiskAssessment :=
  let risk_score := analyze_clause_risk clause.text
  let lc : String × String :=
    if 7/10 ≤ risk_score then ("high", "#ff4444")
    else if 4/10 ≤ risk_score then ("medium", "#ffaa00")
    else ("low", "#44aa44")
  { clause_id := clause.id
    risk_score := risk_score
    risk_level := lc.1
    color := lc.2
    risk_factors := identify_risk_factors clause.text
    explanation := generate_risk_explanation lc.1
      (identify_risk_factors clause.text) }

/-- `_calculate_risks` (lines 84-120). -/
def calculate_risks (clauses : List Clause) : List RiskAssessment :=
  clauses.map assess

/-- Python `round(x, 2)` abstracted over ℚ (the float half-even detail of
the fallback's mock scores is irrelevant to every claim). -/
def pyRound2 (q : ℚ) : ℚ := ((round (q * 100) : ℤ) : ℚ) / 100

/-- `_generate_mock_risk_scores` (lines 235-269): the random draws of
`random.uniform(0.1, 0.9)` are modelled by an abstract stream `rng`,
indexed by the clause's position in the list. -/
def generate_mock_risk_scores (rng : Nat → ℚ) (clauses : List Clause) :
    List RiskAssessment :=
  clauses.enum.map (fun p =>
    let risk_score := pyRound2 (rng p.1)
    let lcf : String × String × List String :=
      if 7/10 ≤ risk_score then
        ("high", "#ff4444", ["Unlimited Liability", "Automatic Termination"])
      else if 4/10 ≤ risk_score then
        ("medium", "#ffaa00", ["Payment Default", "Confidentiality Breach"])
      else ("low", "#44aa44", ["Standard Terms"])
    { clause_id := p.2.id
      risk_score := risk_score
      risk_level := lcf.1
      color := lcf.2.1
      risk_factors := lcf.2.2
      explanation := generate_risk_explanation lcf.1 lcf.2.2 })

/-- `calculate_risk_scores` (lines 67-82): normal path or, on an internal
error, the random fallback. -/
def calculate_risk_scores (rng : Nat → ℚ) (internal_error : Bool)
    (clauses : List Clause) : List RiskAssessment :=
  if internal_error then generate_mock_risk_scores rng clauses
  else calculate_risks clauses

/-- The segmentation-then-scoring pipeline, with explicit failure flags
selecting the services' documented fallback branches. -/
def analyze_document (seg_error risk_error : Bool) (rng : Nat → ℚ)
    (text : List Char) : List Clause × List RiskAssessment :=
  let clauses := segment_clauses_run seg_error text
  (clauses, calculate_risk_scores rng risk_error clauses)

/-! ## Spec-side definitions

These follow the words of the specification sentences under test (not the
code); the claim theorems compare them with the code-derived definitions
above. -/

def clamp01 (x : ℚ) : ℚ := qmax 0 (qmin 1 x)

/-- Spec C1 wording: `pattern_component = total_score / total_weight` if
`total_weight > 0`, else `0` — this component alone, before additions. -/
def spec_pattern_component (t : List Char) : ℚ :=
  if 0 < (pattern_totals t).2 then (pattern_totals t).1 / (pattern_totals t).2
  else 0

/-- Spec C1 wording: `final_score = pattern_component +
additional_adjustments`, clamped once to [0,1] at the very end. -/
def spec_final_score (t : List Char) : ℚ :=
  clamp01 (spec_pattern_component t + calculate_additional_risk_factors t)

/-- Amended C1: the additional adjustments are added into `total_score`
before the division by `total_weight`; the result is clamped above by 1
only on the `total_weight > 0` branch, and equals the additional
adjustments alone (unclamped) when `total_weight = 0`. -/
def amended_final_score (t : List Char) : ℚ :=
  if 0 < (pattern_totals t).2 then
    qmin 1 (((pattern_totals t).1 + calculate_additional_risk_factors t)
           / (pattern_totals t).2)
  else calculate_additional_risk_factors t

/-- Number of non-overlapping occurrences of `needle` in `hay`. -/
def countOcc (needle hay : List Char) : Nat := countAll (RE.lit needle) hay

/-- Spec C7 wording: +0.05 / +0.03 / +0.05 per OCCURRENCE of a keyword
(repeated occurrences each count until the cap). -/
def spec_occurrence_additional (t : List Char) : ℚ :=
  let lower := toLowerL t
  let lenF : ℚ :=
    if 200 < t.length then 1/10 else if 100 < t.length then 1/20 else 0
  lenF
    + qmin (1/5)
        (((negation_words.map (fun w => countOcc w lower)).sum : ℚ) * (1/20))
    + qmin (3/20)
        (((uncertainty_words.map (fun w => countOcc w lower)).sum : ℚ) * (3/100))
    + qmin (1/10)
        (((time_words.map (fun w => countOcc w lower)).sum : ℚ) * (1/20))

/-- Amended C7: +0.05 / +0.03 / +0.05 per DISTINCT keyword of the fixed
list that occurs as a substring (each keyword counted at most once),
capped at 0.2 / 0.15 / 0.1, plus the length bonus. -/
def spec_presence_additional (t : List Char) : ℚ :=
  let lower := toLowerL t
  let lenF : ℚ :=
    if 200 < t.length then 1/10 else if 100 < t.length then 1/20 else 0
  lenF
    + qmin (1/5) ((negation_words.countP (fun w => containsSub w lower) : ℚ) * (1/20))
    + qmin (3/20)
        ((uncertainty_words.countP (fun w => containsSub w lower) : ℚ) * (3/100))
    + qmin (1/10) ((time_words.countP (fun w => containsSub w lower) : ℚ) * (1/20))

/-- Join two pieces with a single space, ignoring empty sides. -/
def sjoin (a b : List Char) : List Char :=
  if a = [] then b else if b = [] then a else a ++ ' ' :: b

/-- Join a list of pieces with single spaces. -/
def joinSp (l : List (List Char)) : List Char := l.foldl sjoin []

/-- Whitespace normalization: words joined by single spaces. -/
def normWS (t : List Char) : List Char := joinSp (pySplitWS t)

/-- Direct concatenation of clause texts in output order. -/
def concatTexts (l : List Clause) : List Char :=
  (l.map Clause.text).foldl (fun a b => a ++ b) []

/-! ## Concrete inputs named by the claims -/

def c1ex : List Char := ("fee payable by client unless approved").data

def c2ex : List Char := ("UNLESS b. IF a. UNLESS b.").data

def c4ex : List Char :=
  ("Either party may terminate this agreement immediately. The breaching party shall pay a penalty of $10,000 and indemnify the other party without limitation.").data

def c5ex : List Char :=
  ("The parties agree to keep all information strictly confidential and shall not disclose it.").data

def c6ex : List Char :=
  ("This Agreement shall terminate upon any breach by either party.").data

def c7ex : List Char := ("not not not not not").data

/-! ## Invariants used by the segmentation proofs -/

/-- A sentence as produced by `split_into_sentences`: nonempty, with
non-whitespace first and last characters. -/
def GoodS (s : List Char) : Prop :=
  s ≠ [] ∧ (∀ c, s.head? = some c → isWS c = false) ∧
    (∀ c, s.getLast? = some c → isWS c = false)

/-- Shape invariant of the accumulating buffer `current_clause`: it is
empty, or a space-joined run of sentences, possibly with one leading
space (the `current_clause += " " + sentence` case starting from ""). -/
def CurInv (current : List Char) : Prop :=
  current = [] ∨
    (GoodS (trimL current) ∧
      (current = trimL current ∨ current = ' ' :: trimL current))

/-! ## Basic lemmas about the arithmetic of the scorer -/

theorem qmin_eq (a b : ℚ) : qmin a b = min a b := (min_def a b).symm

theorem qmax_eq (a b : ℚ) : qmax a b = max a b := (max_def a b).symm

theorem qmin_le_cap (cap x : ℚ) : qmin cap x ≤ cap := by
  rw [qmin_eq]; exact min_le_left _ _

theorem qmin_nonneg (cap x : ℚ) (h1 : 0 ≤ cap) (h2 : 0 ≤ x) : 0 ≤ qmin cap x := by
  rw [qmin_eq]; exact le_min h1 h2

theorem additional_nonneg (t : List Char) :
    0 ≤ calculate_additional_risk_factors t := by
  simp only [calculate_additional_risk_factors]
  have h1 : (0:ℚ) ≤ qmin (1/5)
      (((negation_words.filter (fun w => containsSub w (toLowerL t))).length : ℚ)
        * (1/20)) := qmin_nonneg _ _ (by norm_num) (by positivity)
  have h2 : (0:ℚ) ≤ qmin (3/20)
      (((uncertainty_words.filter (fun w => containsSub w (toLowerL t))).length : ℚ)
        * (3/100)) := qmin_nonneg _ _ (by norm_num) (by positivity)
  have h3 : (0:ℚ) ≤ qmin (1/10)
      (((time_words.filter (fun w => containsSub w (toLowerL t))).length : ℚ)
        * (1/20)) := qmin_nonneg _ _ (by norm_num) (by positivity)
  split_ifs <;> linarith

theorem additional_le (t : List Char) :
    calculate_additional_risk_factors t ≤ 11/20 := by
  simp only [calculate_additional_risk_factors]
  have h1 := qmin_le_cap (1/5)
    (((negation_words.filter (fun w => containsSub w (toLowerL t))).length : ℚ)
      * (1/20))
  have h2 := qmin_le_cap (3/20)
    (((uncertainty_words.filter (fun w => containsSub w (toLowerL t))).length : ℚ)
      * (3/100))
  have h3 := qmin_le_cap (1/10)
    (((time_words.filter (fun w => containsSub w (toLowerL t))).length : ℚ)
      * (1/20))
  split_ifs <;> linarith

theorem pattern_step_le (lower : List Char) (words : Nat) (st : ℚ × ℚ)
    (e : String × (List RE × ℚ)) (hw : 0 ≤ e.2.2) :
    st.1 ≤ (pattern_step lower words st e).1 ∧
      st.2 ≤ (pattern_step lower words st e).2 := by
  simp only [pattern_step]
  split_ifs
  · constructor
    · have : (0:ℚ) ≤ (((e.2.1.map (fun r => countAll r lower)).sum : ℚ)
          / (words : ℚ)) * e.2.2 :=
        mul_nonneg (by positivity) hw
      dsimp only
      linarith
    · dsimp only
      linarith
  · exact ⟨le_refl _, le_refl _⟩

theorem foldl_pattern_step_le (lower : List Char) (words : Nat)
    (l : List (String × (List RE × ℚ))) (hw : ∀ e ∈ l, 0 ≤ e.2.2) (st : ℚ × ℚ) :
    st.1 ≤ (l.foldl (pattern_step lower words) st).1 ∧
      st.2 ≤ (l.foldl (pattern_step lower words) st).2 := by
  induction l generalizing st with
  | nil => exact ⟨le_refl _, le_refl _⟩
  | cons e es ih =>
    have h1 := pattern_step_le lower words st e (hw e (List.mem_cons_self e es))
    have h2 := ih (fun x hx => hw x (List.mem_cons_of_mem e hx))
      (pattern_step lower words st e)
    exact ⟨le_trans h1.1 h2.1, le_trans h1.2 h2.2⟩

theorem pattern_totals_nonneg (t : List Char) :
    0 ≤ (pattern_totals t).1 ∧ 0 ≤ (pattern_totals t).2 := by
  have hw : ∀ e ∈ risk_patterns_list, (0:ℚ) ≤ e.2.2 := by
    intro e he
    simp only [risk_patterns_list, List.mem_cons, List.not_mem_nil, or_false] at he
    rcases he with rfl | rfl | rfl <;> norm_num
  exact foldl_pattern_step_le _ _ _ hw (0, 0)

theorem analyze_bounds (t : List Char) :
    0 ≤ analyze_clause_risk t ∧ analyze_clause_risk t ≤ 1 := by
  unfold analyze_clause_risk
  split_ifs with h1 h2
  · norm_num
  · rw [qmin_eq]
    constructor
    · exact le_min (by norm_num)
        (div_nonneg (add_nonneg (pattern_totals_nonneg t).1 (additional_nonneg t))
          (le_of_lt h2))
    · exact min_le_left _ _
  · exact ⟨additional_nonneg t, le_trans (additional_le t) (by norm_num)⟩

/-- The per-clause shape of the assessments produced by `_calculate_risks`:
bounds on the score, the level as a pure threshold function of the score,
and the one-to-one level/color binding. -/
theorem assess_props (cl : Clause) :
    (0 ≤ (assess cl).risk_score ∧ (assess cl).risk_score ≤ 1) ∧
    (assess cl).risk_level =
      (if 7/10 ≤ (assess cl).risk_score then "high"
       else if 4/10 ≤ (assess cl).risk_score then "medium" else "low") ∧
    (assess cl).color =
      (if (assess cl).risk_level = "high" then "#ff4444"
       else if (assess cl).risk_level = "medium" then "#ffaa00"
       else "#44aa44") ∧
    ((assess cl).risk_level = "high" ↔ (assess cl).color = "#ff4444") ∧
    ((assess cl).risk_level = "medium" ↔ (assess cl).color = "#ffaa00") ∧
    ((assess cl).risk_level = "low" ↔ (assess cl).color = "#44aa44") := by
  have hb := analyze_bounds cl.text
  have hs : (assess cl).risk_score = analyze_clause_risk cl.text := rfl
  have hlc : ((assess cl).risk_level, (assess cl).color) =
      (if 7/10 ≤ analyze_clause_risk cl.text then ("high", "#ff4444")
       else if 4/10 ≤ analyze_clause_risk cl.text then ("medium", "#ffaa00")
       else ("low", "#44aa44")) := by
    simp only [assess]
  by_cases h1 : 7/10 ≤ analyze_clause_risk cl.text
  · rw [if_pos h1] at hlc
    injection hlc with hl hc
    exact ⟨by rw [hs]; exact hb, by rw [hl, hs, if_pos h1],
      by rw [hc, hl]; decide, by rw [hl, hc]; decide,
      by rw [hl, hc]; decide, by rw [hl, hc]; decide⟩
  · rw [if_neg h1] at hlc
    by_cases h2 : 4/10 ≤ analyze_clause_risk cl.text
    · rw [if_pos h2] at hlc
      injection hlc with hl hc
      exact ⟨by rw [hs]; exact hb, by rw [hl, hs, if_neg h1, if_pos h2],
        by rw [hc, hl]; decide, by rw [hl, hc]; decide,
        by rw [hl, hc]; decide, by rw [hl, hc]; decide⟩
    · rw [if_neg h2] at hlc
      injection hlc with hl hc
      exact ⟨by rw [hs]; exact hb, by rw [hl, hs, if_neg h1, if_neg h2],
        by rw [hc, hl]; decide, by rw [hl, hc]; decide,
        by rw [hl, hc]; decide, by rw [hl, hc]; decide⟩

set_option maxRecDepth 200000

set_option maxHeartbeats 2000000

/-- C1 counterexample: on the clause text "fee payable by client unless
approved" the code's score, `min 1 ((total_score + additional) /
total_weight)` = 4/15, differs from the claimed
`pattern_component + additional` = 13/60, because the code adds the
additional adjustments before the division by `total_weight`, not after. -/
theorem C1_cex_code_differs_from_claimed_formula :
    analyze_clause_risk c1ex ≠ spec_final_score c1ex ∧
    analyze_clause_risk c1ex = Rat.divInt 4 15 ∧
    spec_final_score c1ex = Rat.divInt 13 60 := by
  with_unfolding_all decide

/-- C1 (amended): for every non-empty, non-whitespace clause text the
returned risk score equals `min 1 ((total_score + additional_adjustments)
/ total_weight)` when `total_weight > 0` — the additional adjustments are
added BEFORE the division — and equals the additional adjustments alone
(with no clamp applied) when `total_weight = 0`. -/
theorem C1_amended_final_score_formula (t : List Char) (h : trimL t ≠ []) :
    analyze_clause_risk t = amended_final_score t := by
  unfold analyze_clause_risk amended_final_score
  rw [if_neg h]

/-- Witness for C1 (amended) at the concrete clause text of the
counterexample. -/
theorem C1_amended_final_score_formula_witness :
    trimL c1ex ≠ [] ∧ analyze_clause_risk c1ex = amended_final_score c1ex :=
  ⟨by with_unfolding_all decide,
   C1_amended_final_score_formula c1ex (by with_unfolding_all decide)⟩

/-- C3: every assessment produced by `_calculate_risks` has
`risk_score ∈ [0,1]`; its `risk_level` is the pure threshold function of
the score with boundary values in the upper bucket (`score ≥ 0.7 → high`,
`0.4 ≤ score < 0.7 → medium`, `score < 0.4 → low`); and `color` is bound
one-to-one to `risk_level` (`high → #ff4444`, `medium → #ffaa00`,
`low → #44aa44`). -/
theorem C3_score_bounds_level_thresholds_color (clauses : List Clause) :
    (calculate_risks clauses).Forall (fun r =>
      (0 ≤ r.risk_score ∧ r.risk_score ≤ 1) ∧
      r.risk_level =
        (if 7/10 ≤ r.risk_score then "high"
         else if 4/10 ≤ r.risk_score then "medium" else "low") ∧
      r.color =
        (if r.risk_level = "high" then "#ff4444"
         else if r.risk_level = "medium" then "#ffaa00" else "#44aa44") ∧
      ((r.risk_level = "high" ↔ r.color = "#ff4444") ∧
       (r.risk_level = "medium" ↔ r.color = "#ffaa00") ∧
       (r.risk_level = "low" ↔ r.color = "#44aa44"))) := by
  induction clauses with
  | nil => exact trivial
  | cons c cs ih =>
    have hstep : calculate_risks (c :: cs) = assess c :: calculate_risks cs := rfl
    rw [hstep, List.forall_cons]
    refine ⟨?_, ih⟩
    have h := assess_props c
    exact ⟨h.1, h.2.1, h.2.2.1, h.2.2.2⟩

/-- C4 counterexample: on the claimed input the two sentences merge —
neither matches a clause-start pattern — so the analysis produces a
SINGLE clause, not a second one, and no clause is rated high (the only
clause is rated low). -/
theorem C4_cex_single_clause_not_high :
    (segment_clauses c4ex).length = 1 ∧
    (calculate_risks (segment_clauses c4ex)).map RiskAssessment.risk_level
      = ["low"] := by
  with_unfolding_all decide

/-- C4 (amended): on the claimed input the analysis produces exactly one
clause (the two sentences merge because neither matches a clause-start
pattern); its risk factors are exactly "Penalty Clauses" and
"Indemnification", and its risk level is "low" (score 287/920 ≈ 0.31). -/
theorem C4_amended_single_low_clause :
    (segment_clauses c4ex).length = 1 ∧
    (calculate_risks (segment_clauses c4ex)).map RiskAssessment.risk_factors
      = [["Penalty Clauses", "Indemnification"]] ∧
    (calculate_risks (segment_clauses c4ex)).map RiskAssessment.risk_score
      = [Rat.divInt 287 920] ∧
    (calculate_risks (segment_clauses c4ex)).map RiskAssessment.risk_level
      = ["low"] := by
  with_unfolding_all decide

/-- C5 counterexample: the classifier does NOT return "prohibition" on the
claimed sentence. -/
theorem C5_cex_not_prohibition :
    classify_clause_type c5ex ≠ "prohibition" := by
  with_unfolding_all decide

/-- C5 (amended): `classify` returns "obligation" on the claimed sentence,
because the obligation group (matching "shall" and "agree to") is
evaluated before both the prohibition and the confidentiality groups in
the fixed priority order. -/
theorem C5_amended_obligation_wins :
    classify_clause_type c5ex = "obligation" := by
  with_unfolding_all decide

/-- C6: `classify("This Agreement shall terminate upon any breach by
either party.")` returns "obligation": the obligation group (containing
"shall") is evaluated before the termination group in the fixed priority
order. -/
theorem C6_obligation_before_termination :
    classify_clause_type c6ex = "obligation" := by
  with_unfolding_all decide

/-- C7 counterexample: on "not not not not not" the code adds 0.1 (the
two distinct negation keywords "not" and "no" present as substrings),
not the 0.2 the per-occurrence reading demands (10 occurrences, capped). -/
theorem C7_cex_presence_not_occurrences :
    calculate_additional_risk_factors c7ex ≠ spec_occurrence_additional c7ex ∧
    calculate_additional_risk_factors c7ex = Rat.divInt 1 10 ∧
    spec_occurrence_additional c7ex = Rat.divInt 1 5 := by
  with_unfolding_all decide

/-- C7 (amended): the additional risk adjustment equals the length bonus
plus 0.05 per DISTINCT negation keyword of the fixed 8-word list that
occurs as a substring (each keyword counted at most once) capped at 0.2,
plus 0.03 per distinct hedging keyword of the 6-word list capped at 0.15,
plus 0.05 per distinct urgency keyword of the 5-word list capped at 0.1. -/
theorem C7_amended_distinct_keyword_formula (t : List Char) :
    calculate_additional_risk_factors t = spec_presence_additional t := by
  unfold calculate_additional_risk_factors spec_presence_additional
  simp only [List.countP_eq_length_filter]

/-- C9: the analysis pipeline on the non-fallback path is deterministic:
its result does not depend on the random stream, which is consulted only
by the isolated fallback branch (`_generate_mock_risk_scores`); two runs
on the same input produce identical clause lists and assessments. -/
theorem C9_non_fallback_deterministic (rng1 rng2 : Nat → ℚ) (text : List Char) :
    analyze_document false false rng1 text
      = analyze_document false false rng2 text := rfl

/-- C10: a clause whose text matches no weighted risk-group pattern
(`total_weight = 0`) receives exactly the additional-adjustments sum as
its score, which is at most 0.55 (0.1 length + 0.2 negation + 0.15
uncertainty + 0.1 urgency), so its level is never "high". -/
theorem C10_no_pattern_match_low_bound (cl : Clause)
    (h1 : trimL cl.text ≠ []) (h2 : (pattern_totals cl.text).2 = 0) :
    (assess cl).risk_score = calculate_additional_risk_factors cl.text ∧
    (assess cl).risk_score ≤ 11/20 ∧
    (assess cl).risk_level ≠ "high" := by
  have hs : analyze_clause_risk cl.text
      = calculate_additional_risk_factors cl.text := by
    unfold analyze_clause_risk
    rw [if_neg h1, if_neg (by rw [h2]; exact lt_irrefl 0)]
  have hsc : (assess cl).risk_score = analyze_clause_risk cl.text := rfl
  have hle := additional_le cl.text
  have h7 : ¬ (7/10 : ℚ) ≤ analyze_clause_risk cl.text := by
    rw [hs]; intro hcon; linarith
  have hlc : ((assess cl).risk_level, (assess cl).color) =
      (if 7/10 ≤ analyze_clause_risk cl.text then ("high", "#ff4444")
       else if 4/10 ≤ analyze_clause_risk cl.text then ("medium", "#ffaa00")
       else ("low", "#44aa44")) := by
    simp only [assess]
  rw [if_neg h7] at hlc
  refine ⟨by rw [hsc, hs], by rw [hsc, hs]; exact hle, ?_⟩
  by_cases h4 : (4/10 : ℚ) ≤ analyze_clause_risk cl.text
  · rw [if_pos h4] at hlc
    injection hlc with hl _
    rw [hl]
    decide
  · rw [if_neg h4] at hlc
    injection hlc with hl _
    rw [hl]
    decide

/-- Witness for C10 at the clause text "hello world", which matches no
weighted pattern. -/
theorem C10_no_pattern_match_low_bound_witness :
    trimL (("hello world").data) ≠ [] ∧
    (pattern_totals (("hello world").data)).2 = 0 ∧
    (assess { id := 1, text := ("hello world").data, type := "general",
              start_index := 0, end_index := 11,
              confidence := Rat.divInt 1 2 }).risk_level ≠ "high" := by
  refine ⟨by with_unfolding_all decide, by with_unfolding_all decide, ?_⟩
  exact (C10_no_pattern_match_low_bound _ (by with_unfolding_all decide)
    (by with_unfolding_all decide)).2.2

/-! ## C8: empty and whitespace-only input -/

theorem segment_text_ne_nil (text : List Char) : segment_text text ≠ [] := by
  simp only [segment_text]
  split_ifs <;> simp_all

/-- C8: `segment` returns an empty sequence exactly on whitespace-only
(or empty) input; every non-empty input after trimming yields at least
one clause; and an empty or whitespace-only clause text scores
`risk_score = 0.0` with `risk_level = "low"`. -/
theorem C8_empty_whitespace_behaviour (text : List Char) (cl : Clause) :
    (trimL text = [] → segment_clauses text = []) ∧
    (trimL text ≠ [] → 1 ≤ (segment_clauses text).length) ∧
    (trimL cl.text = [] →
      (assess cl).risk_score = 0 ∧ (assess cl).risk_level = "low") := by
  have hrun : segment_clauses text
      = if trimL text = [] then [] else segment_text text := rfl
  refine ⟨?_, ?_, ?_⟩
  · intro h
    rw [hrun, if_pos h]
  · intro h
    rw [hrun, if_neg h]
    exact List.length_pos.mpr (segment_text_ne_nil text)
  · intro h
    have hs : analyze_clause_risk cl.text = 0 := by
      unfold analyze_clause_risk
      rw [if_pos h]
    have hsc : (assess cl).risk_score = analyze_clause_risk cl.text := rfl
    have hlc : ((assess cl).risk_level, (assess cl).color) =
        (if 7/10 ≤ analyze_clause_risk cl.text then ("high", "#ff4444")
         else if 4/10 ≤ analyze_clause_risk cl.text then ("medium", "#ffaa00")
         else ("low", "#44aa44")) := by
      simp only [assess]
    rw [hs, if_neg (by norm_num), if_neg (by norm_num)] at hlc
    injection hlc with hl _
    exact ⟨by rw [hsc, hs], hl⟩

/-- Witness for C8: whitespace-only input segments to `[]`, "a." yields a
clause, and the empty clause text is scored 0 / low. -/
theorem C8_empty_whitespace_behaviour_witness :
    segment_clauses (("   ").data) = [] ∧
    1 ≤ (segment_clauses (("a.").data)).length ∧
    ((assess { id := 1, text := [], type := "general", start_index := 0,
               end_index := 0, confidence := 1 }).risk_score = 0 ∧
     (assess { id := 1, text := [], type := "general", start_index := 0,
               end_index := 0, confidence := 1 }).risk_level = "low") := by
  refine ⟨?_, ?_, ?_⟩
  · exact (C8_empty_whitespace_behaviour (("   ").data)
      { id := 1, text := [], type := "general", start_index := 0,
        end_index := 0, confidence := 1 }).1 (by with_unfolding_all decide)
  · exact (C8_empty_whitespace_behaviour (("a.").data)
      { id := 1, text := [], type := "general", start_index := 0,
        end_index := 0, confidence := 1 }).2.1 (by with_unfolding_all decide)
  · exact (C8_empty_whitespace_behaviour []
      { id := 1, text := [], type := "general", start_index := 0,
        end_index := 0, confidence := 1 }).2.2 (by with_unfolding_all decide)

/-! ## List and trimming lemmas for the C2 segmentation invariant -/

theorem head_dropWhile_not (p : Char → Bool) (l : List Char) (c : Char)
    (h : (l.dropWhile p).head? = some c) : p c = false := by
  induction l with
  | nil => simp [List.dropWhile] at h
  | cons a t ih =>
    rw [List.dropWhile_cons] at h
    split_ifs at h with hp
    · exact ih h
    · have : a = c := by simpa using h
      subst this
      cases hb : p a with
      | false => rfl
      | true => exact absurd hb hp

theorem getLast?_cons_ne_nil (a : Char) (t : List Char) (h : t ≠ []) :
    (a :: t).getLast? = t.getLast? := by
  cases t with
  | nil => exact absurd rfl h
  | cons b u => exact List.getLast?_cons_cons

theorem getLast?_dropWhile (p : Char → Bool) (l : List Char) (c : Char)
    (h : (l.dropWhile p).getLast? = some c) : l.getLast? = some c := by
  induction l with
  | nil => simp [List.dropWhile] at h
  | cons a t ih =>
    rw [List.dropWhile_cons] at h
    split_ifs at h with hp
    · have ht := ih h
      have htne : t ≠ [] := by
        intro he
        rw [he] at ht
        simp at ht
      rw [getLast?_cons_ne_nil a t htne]
      exact ht
    · exact h

theorem getLast?_append_right (a b : List Char) (h : b ≠ []) :
    (a ++ b).getLast? = b.getLast? := by
  induction a with
  | nil => rfl
  | cons x xs ih =>
    have hne : xs ++ b ≠ [] := by
      intro he
      exact h (List.append_eq_nil.mp he).2
    rw [List.cons_append, getLast?_cons_ne_nil x (xs ++ b) hne, ih]

theorem head?_append_left (a b : List Char) (h : a ≠ []) :
    (a ++ b).head? = a.head? := by
  cases a with
  | nil => exact absurd rfl h
  | cons x xs => rfl

theorem dropWhile_ws_eq_self (g : List Char)
    (hh : ∀ c, g.head? = some c → isWS c = false) : g.dropWhile isWS = g := by
  cases g with
  | nil => rfl
  | cons a t => rw [List.dropWhile_cons, if_neg (by simp [hh a rfl])]

theorem trimL_eq_self (s : List Char)
    (h1 : ∀ c, s.head? = some c → isWS c = false)
    (h2 : ∀ c, s.getLast? = some c → isWS c = false) : trimL s = s := by
  cases s with
  | nil => rfl
  | cons a t =>
    unfold trimL rtrimL
    rw [dropWhile_ws_eq_self (a :: t) h1]
    cases hrev : (a :: t).reverse with
    | nil => exact absurd hrev (by simp)
    | cons b u =>
      have hb : (a :: t).getLast? = some b := by
        rw [← List.head?_reverse, hrev]
        rfl
      have hh : ∀ c, (b :: u).head? = some c → isWS c = false := by
        intro c hc
        have hbc : b = c := by simpa using hc
        subst hbc
        exact h2 b hb
      rw [dropWhile_ws_eq_self (b :: u) hh]
      have hrr := congrArg List.reverse hrev
      rw [List.reverse_reverse] at hrr
      exact hrr.symm

theorem goodS_trimL (s : List Char) (h : trimL s ≠ []) : GoodS (trimL s) := by
  refine ⟨h, ?_, ?_⟩
  · intro c hc
    unfold trimL rtrimL at hc
    rw [List.head?_reverse] at hc
    have h2 := getLast?_dropWhile isWS _ c hc
    rw [List.getLast?_reverse] at h2
    exact head_dropWhile_not isWS _ c h2
  · intro c hc
    unfold trimL rtrimL at hc
    rw [List.getLast?_reverse] at hc
    exact head_dropWhile_not isWS _ c hc

theorem trimL_space_cons (g : List Char) (hg : GoodS g) :
    trimL (' ' :: g) = g := by
  obtain ⟨hne, hh, hl⟩ := hg
  have hstep : (' ' :: g).dropWhile isWS = g := by
    rw [List.dropWhile_cons, if_pos (show isWS ' ' = true from rfl)]
    exact dropWhile_ws_eq_self g hh
  have h3 := trimL_eq_self g hh hl
  unfold trimL at h3 ⊢
  rw [hstep]
  rw [dropWhile_ws_eq_self g hh] at h3
  exact h3

theorem goodS_append (a b : List Char) (ha : GoodS a) (hb : GoodS b) :
    GoodS (a ++ ' ' :: b) := by
  obtain ⟨hane, hah, _⟩ := ha
  obtain ⟨hbne, _, hbl⟩ := hb
  refine ⟨by simp, ?_, ?_⟩
  · intro c hc
    rw [head?_append_left a (' ' :: b) hane] at hc
    exact hah c hc
  · intro c hc
    rw [getLast?_append_right a (' ' :: b) (by simp)] at hc
    rw [getLast?_cons_ne_nil ' ' b hbne] at hc
    exact hbl c hc

theorem trimL_append (a b : List Char) (ha : GoodS a) (hb : GoodS b) :
    trimL (a ++ ' ' :: b) = a ++ ' ' :: b := by
  have hg := goodS_append a b ha hb
  exact trimL_eq_self _ hg.2.1 hg.2.2

theorem sjoin_nil_left (b : List Char) : sjoin [] b = b := by
  simp [sjoin]

theorem sjoin_ne_nil (a b : List Char) (hb : b ≠ []) : sjoin a b ≠ [] := by
  unfold sjoin
  by_cases h1 : a = []
  · rw [if_pos h1]
    exact hb
  · rw [if_neg h1, if_neg hb]
    simp

theorem sjoin_assoc (a b c : List Char) :
    sjoin (sjoin a b) c = sjoin a (sjoin b c) := by
  unfold sjoin
  split_ifs <;> simp_all

theorem joinSp_append_single (l : List (List Char)) (x : List Char) :
    joinSp (l ++ [x]) = sjoin (joinSp l) x := by
  unfold joinSp
  rw [List.foldl_append]
  rfl

theorem joinSp_ne_nil (ss : List (List Char)) (hne : ss ≠ [])
    (h : ∀ s ∈ ss, s ≠ []) : joinSp ss ≠ [] := by
  rcases List.eq_nil_or_concat ss with h0 | ⟨l, x, rfl⟩
  · exact absurd h0 hne
  · rw [List.concat_eq_append, joinSp_append_single]
    exact sjoin_ne_nil _ _ (h x (by simp))

theorem sentences_good (t : List Char) :
    ∀ s ∈ split_into_sentences t, GoodS s := by
  intro s hs
  unfold split_into_sentences at hs
  rw [List.mem_filter] at hs
  obtain ⟨hmem, hne⟩ := hs
  rw [List.mem_map] at hmem
  obtain ⟨piece, _, rfl⟩ := hmem
  have h : trimL piece ≠ [] := by simpa using hne
  exact goodS_trimL piece h

theorem sjoin_nil_right (a : List Char) : sjoin a [] = a := by
  unfold sjoin
  by_cases h : a = []
  · rw [if_pos h, h]
  · rw [if_neg h, if_pos (show ([] : List Char) = [] from rfl)]

theorem curInv_nil : CurInv [] := Or.inl rfl

theorem curInv_sentence (s : List Char) (hs : GoodS s) : CurInv s := by
  right
  rw [trimL_eq_self s hs.2.1 hs.2.2]
  exact ⟨hs, Or.inl rfl⟩

theorem curInv_extend (c s : List Char) (hc : CurInv c) (hs : GoodS s) :
    trimL (c ++ ' ' :: s) = sjoin (trimL c) s ∧ CurInv (c ++ ' ' :: s) := by
  rcases hc with rfl | ⟨hg, hcase⟩
  · constructor
    · rw [List.nil_append, trimL_space_cons s hs]
      rfl
    · right
      rw [List.nil_append, trimL_space_cons s hs]
      exact ⟨hs, Or.inr rfl⟩
  · rcases hcase with hceq | hceq
    · have hgc : GoodS c := by rw [hceq]; exact hg
      have h1 : trimL (c ++ ' ' :: s) = c ++ ' ' :: s := trimL_append c s hgc hs
      constructor
      · rw [h1, ← hceq]
        unfold sjoin
        rw [if_neg hgc.1, if_neg hs.1]
      · right
        rw [h1]
        exact ⟨goodS_append c s hgc hs, Or.inl rfl⟩
    · have hgg : GoodS (trimL c ++ ' ' :: s) := goodS_append _ _ hg hs
      have h1 : trimL (c ++ ' ' :: s) = trimL c ++ ' ' :: s := by
        conv_lhs => rw [hceq]
        rw [List.cons_append]
        exact trimL_space_cons _ hgg
      constructor
      · rw [h1]
        unfold sjoin
        rw [if_neg hg.1, if_neg hs.1]
      · right
        rw [h1]
        refine ⟨hgg, Or.inr ?_⟩
        conv_lhs => rw [hceq]
        rw [List.cons_append]

/-- Invariant of the sentence loop of `_segment_text`: the flushed clause
texts joined by single spaces, extended by the trimmed running buffer,
equal the space-join of the sentences processed so far. -/
theorem seg_fold (text : List Char) (ss : List (List Char))
    (hss : ∀ s ∈ ss, GoodS s) :
    ∀ st : SegState, CurInv st.current →
      CurInv ((ss.foldl (segStep text) st).current) ∧
      sjoin (joinSp (((ss.foldl (segStep text) st).clauses).map Clause.text))
          (trimL ((ss.foldl (segStep text) st).current))
        = ss.foldl sjoin
            (sjoin (joinSp (st.clauses.map Clause.text)) (trimL st.current)) := by
  induction ss with
  | nil =>
    intro st hc
    exact ⟨hc, rfl⟩
  | cons s ss ih =>
    intro st hc
    have hs : GoodS s := hss s (List.mem_cons_self s ss)
    have hss' : ∀ x ∈ ss, GoodS x := fun x hx => hss x (List.mem_cons_of_mem s hx)
    rw [List.foldl_cons, List.foldl_cons]
    by_cases hstart : is_clause_start s = true
    · by_cases hcur : trimL st.current = []
      · have hstep : segStep text st s =
            { st with current := s, start := pyFind text s } := by
          unfold segStep
          rw [if_pos hstart, if_neg (not_not_intro hcur)]
        rw [hstep]
        have h2 := ih hss' { st with current := s, start := pyFind text s }
          (curInv_sentence s hs)
        refine ⟨h2.1, ?_⟩
        rw [h2.2]
        congr 1
        dsimp only
        rw [trimL_eq_self s hs.2.1 hs.2.2, hcur, sjoin_nil_right]
      · have hstep : segStep text st s =
            { clauses := st.clauses ++ [mkClause st.id st.current st.start]
              current := s
              id := st.id + 1
              start := pyFind text s } := by
          unfold segStep
          rw [if_pos hstart, if_pos hcur]
        rw [hstep]
        have h2 := ih hss'
          { clauses := st.clauses ++ [mkClause st.id st.current st.start]
            current := s
            id := st.id + 1
            start := pyFind text s } (curInv_sentence s hs)
        refine ⟨h2.1, ?_⟩
        rw [h2.2]
        congr 1
        dsimp only
        rw [trimL_eq_self s hs.2.1 hs.2.2]
        simp only [List.map_append, List.map_cons, List.map_nil]
        rw [joinSp_append_single]
        rfl
    · have hstep : segStep text st s =
          { st with current := st.current ++ ' ' :: s } := by
        unfold segStep
        rw [if_neg hstart]
      rw [hstep]
      have hext := curInv_extend st.current s hc hs
      have h2 := ih hss' { st with current := st.current ++ ' ' :: s } hext.2
      refine ⟨h2.1, ?_⟩
      rw [h2.2]
      congr 1
      dsimp only
      rw [hext.1, ← sjoin_assoc]

/-- C2 counterexample: on "UNLESS b. IF a. UNLESS b." the clause start
indices are [0, 10, 0] — NOT non-decreasing (the third clause's text
recurs verbatim, and `text.find` reports the earliest occurrence) — and
the clause texts, concatenated directly or space-joined, do not reproduce
the source modulo whitespace normalization (the sentence periods are
dropped by the splitter). -/
theorem C2_cex_order_and_concatenation :
    ((segment_clauses c2ex).map Clause.start_index = [0, 10, 0]) ∧
    ¬ ((segment_clauses c2ex).map Clause.start_index).Sorted (· ≤ ·) ∧
    normWS (concatTexts (segment_clauses c2ex)) ≠ normWS c2ex ∧
    normWS (joinSp ((segment_clauses c2ex).map Clause.text)) ≠ normWS c2ex := by
  with_unfolding_all decide

/-- C2 (amended): for every input with at least one sentence, the clause
texts produced by `_segment_text`, joined in output order by single
spaces, equal the space-join of the input's sentences (the maximal
`[.!?]`-free segments, trimmed, empties dropped) — i.e. the source text
is reproduced modulo whitespace normalization AND removal of the sentence
delimiters `.`, `!`, `?`.  The `start_index` values are first-occurrence
substring positions and need not be non-decreasing. -/
theorem C2_amended_concatenation (text : List Char)
    (h : split_into_sentences text ≠ []) :
    joinSp ((segment_text text).map Clause.text)
      = joinSp (split_into_sentences text) := by
  have hss := sentences_good text
  have hfold := seg_fold text (split_into_sentences text) hss
    ⟨[], [], 1, 0⟩ curInv_nil
  have hJne : joinSp (split_into_sentences text) ≠ [] :=
    joinSp_ne_nil _ h (fun s hs => (hss s hs).1)
  have hval : sjoin
      (joinSp ((((split_into_sentences text).foldl (segStep text)
        ⟨[], [], 1, 0⟩).clauses).map Clause.text))
      (trimL (((split_into_sentences text).foldl (segStep text)
        ⟨[], [], 1, 0⟩).current))
      = joinSp (split_into_sentences text) := hfold.2
  simp only [segment_text]
  by_cases hcur : trimL (((split_into_sentences text).foldl (segStep text)
      ⟨[], [], 1, 0⟩).current) = []
  · rw [if_neg (not_not_intro hcur)]
    rw [hcur, sjoin_nil_right] at hval
    have hclne : (((split_into_sentences text).foldl (segStep text)
        ⟨[], [], 1, 0⟩).clauses) ≠ [] := by
      intro he
      rw [he] at hval
      exact hJne hval.symm
    rw [if_neg hclne]
    exact hval
  · rw [if_pos hcur]
    rw [if_neg (by simp)]
    simp only [List.map_append, List.map_cons, List.map_nil]
    rw [joinSp_append_single]
    exact hval

/-- Witness for C2 (amended) on a two-sentence document. -/
theorem C2_amended_concatenation_witness :
    split_into_sentences (("Hello there. Bye.").data) ≠ [] ∧
    joinSp ((segment_text (("Hello there. Bye.").data)).map Clause.text)
      = joinSp (split_into_sentences (("Hello there. Bye.").data)) :=
  ⟨by with_unfolding_all decide,
   C2_amended_concatenation _ (by with_unfolding_all decide)⟩

end Lawgorithm
